import Mathlib

/-!
Verification development for the unimob-test-playable gameplay core.

This file gives a shallow embedding, in Lean, of the three components with
real design content — the finite state machine
(src/assets/scripts/framework/fsm/StateMachine.ts), the event channel
(the EventManager source file, src/unnamed/part_001) and the object pool
(the PoolManager source file, src/unnamed/part_002) — and proves or refutes
the specification's claims about them.

Modelling conventions:
* TypeScript numbers used as durations (`deltaTime`, `minTimeInState`) are
  modelled as rationals; counters are naturals, except the pool's
  `_totalSize`, which is an integer because the source decrements it
  without a lower-bound check.
* Object identities (state instances, callbacks, listener targets, pooled
  nodes) are modelled as natural-number identifiers.
* Console logging and lifecycle hook invocations are modelled as explicit
  observable events returned next to the new state, so that theorems can
  speak about which hooks fired and in which order.
-/

namespace Unimob

/-- Replace-or-append update of an association list, mirroring the
semantics of a JavaScript `Map.set` (the value stored under an existing
key is replaced in place; a new key is appended in insertion order). -/
def mapSet {α : Type} (k : String) (v : α) : List (String × α) → List (String × α)
  | [] => [(k, v)]
  | (k0, v0) :: rest => if k0 = k then (k, v) :: rest else (k0, v0) :: mapSet k v rest

/-- Observable effects of the state machine: invocations of the lifecycle
hooks `onEnter`, `onExit` and `update` of the concrete `State` objects
(identified by natural numbers), plus console warnings. -/
inductive Ev where
  | enter (state : Nat) (prevState : Option Nat)
  | exit (state : Nat) (nextState : Nat)
  | upd (state : Nat) (dt : ℚ)
  | warn
deriving DecidableEq, Repr

/-- The `StateMachine` component of
src/assets/scripts/framework/fsm/StateMachine.ts: a current state
(nullable), a name-to-state `Map`, and the minimum-time-in-state throttle
fields (lines 37-49).  The `owner` field is omitted: the machine binds it
in `initialize` but never reads it. -/
structure StateMachine where
  currentState : Option Nat := none
  states : List (String × Nat) := []
  minTimeInState : ℚ := 1/10
  timeInCurrentState : ℚ := 0
deriving DecidableEq, Repr

/-- A freshly constructed state machine (all fields at their initializers). -/
def initMachine : StateMachine := {}

/-- `registerState` (StateMachine.ts lines 64-66): a bare `Map.set`. -/
def StateMachine.registerState (m : StateMachine) (name : String) (state : Nat) :
    StateMachine :=
  { m with states := mapSet name state m.states }

/-- `changeState` (StateMachine.ts lines 73-90).  Unknown name: warn and
return false.  Otherwise: call `onExit` on the current state (if any),
make the named state current, zero `timeInCurrentState`, call `onEnter`
on the new state with the previous one, return true.  The result carries
the hook/warning events in the order the source emits them. -/
def StateMachine.changeState (m : StateMachine) (stateName : String) :
    StateMachine × List Ev × Bool :=
  match m.states.lookup stateName with
  | none => (m, [Ev.warn], false)
  | some newState =>
    let exitEvs : List Ev :=
      match m.currentState with
      | some c => [Ev.exit c newState]
      | none => []
    ({ m with currentState := some newState, timeInCurrentState := 0 },
      exitEvs ++ [Ev.enter newState m.currentState], true)

/-- `update` (StateMachine.ts lines 96-116).  The per-frame result of the
current state's `checkTransitions()` method is supplied by the `check`
argument (the state objects are external to the machine; `check c` is
what state `c` answers at this call).  No current state: no-op.
Otherwise: accumulate `dt`, call the current state's `update`, and only
once `timeInCurrentState` has reached `minTimeInState` consult
`checkTransitions`; a non-null answer triggers `onExit`, the swap, a
timer reset, and `onEnter`. -/
def StateMachine.update (m : StateMachine) (dt : ℚ) (check : Nat → Option Nat) :
    StateMachine × List Ev :=
  match m.currentState with
  | none => (m, [])
  | some c =>
    let t := m.timeInCurrentState + dt
    if m.minTimeInState ≤ t then
      match check c with
      | some nextState =>
        ({ m with currentState := some nextState, timeInCurrentState := 0 },
          [Ev.upd c dt, Ev.exit c nextState, Ev.enter nextState (some c)])
      | none => ({ m with timeInCurrentState := t }, [Ev.upd c dt])
    else ({ m with timeInCurrentState := t }, [Ev.upd c dt])

/-- `getCurrentState` (StateMachine.ts lines 122-124): a pure read. -/
def StateMachine.getCurrentState (m : StateMachine) : Option Nat := m.currentState

/-- `setMinTimeInState` (StateMachine.ts lines 130-132). -/
def StateMachine.setMinTimeInState (m : StateMachine) (time : ℚ) : StateMachine :=
  { m with minTimeInState := time }

/-- Drive the machine through a list of frames; each frame carries its
`deltaTime` and the `checkTransitions` answers of the state objects for
that frame.  Events of all frames are concatenated in order. -/
def StateMachine.runUpdates (m : StateMachine) :
    List (ℚ × (Nat → Option Nat)) → StateMachine × List Ev
  | [] => (m, [])
  | (dt, check) :: rest =>
    let step := m.update dt check
    let tail := step.1.runUpdates rest
    (tail.1, step.2 ++ tail.2)

/-- Whether an event is an `onExit` invocation (the marker of a transition). -/
def isExit : Ev → Bool
  | Ev.exit _ _ => true
  | _ => false

/-- Whether a trace contains a transition. -/
def containsExit (evs : List Ev) : Bool := evs.any isExit

/-! ### Helper lemmas about the state machine -/

theorem lookup_mapSet_self {α : Type} (k : String) (v : α) (l : List (String × α)) :
    (mapSet k v l).lookup k = some v := by
  induction l with
  | nil => simp [mapSet, List.lookup]
  | cons hd tl ih =>
    obtain ⟨k0, v0⟩ := hd
    by_cases h : k0 = k
    · simp [mapSet, h, List.lookup]
    · have hbeq : (k == k0) = false := beq_eq_false_iff_ne.mpr (Ne.symm h)
      simp only [mapSet, if_neg h, List.lookup, hbeq]
      exact ih

theorem lookup_mapSet_ne {α : Type} (k k' : String) (v : α) (l : List (String × α))
    (h : k' ≠ k) : (mapSet k v l).lookup k' = l.lookup k' := by
  have hbeq : (k' == k) = false := beq_eq_false_iff_ne.mpr h
  induction l with
  | nil => simp [mapSet, List.lookup, hbeq]
  | cons hd tl ih =>
    obtain ⟨k0, v0⟩ := hd
    by_cases hk : k0 = k
    · subst hk
      simp only [mapSet, if_pos rfl, List.lookup, hbeq]
    · simp only [mapSet, if_neg hk, List.lookup]
      cases hbeq' : (k' == k0) with
      | true => rfl
      | false => exact ih

theorem update_of_none (m : StateMachine) (dt : ℚ) (check : Nat → Option Nat)
    (h : m.currentState = none) : m.update dt check = (m, []) := by
  simp [StateMachine.update, h]

theorem update_no_exit (m : StateMachine) (dt : ℚ) (check : Nat → Option Nat) (c : Nat)
    (hc : m.currentState = some c)
    (h : containsExit (m.update dt check).2 = false) :
    (m.update dt check).1 = { m with timeInCurrentState := m.timeInCurrentState + dt } := by
  unfold StateMachine.update
  rw [hc]
  by_cases ht : m.minTimeInState ≤ m.timeInCurrentState + dt
  · cases hcheck : check c with
    | none => simp [ht, hcheck]
    | some n =>
      exfalso
      unfold StateMachine.update at h
      rw [hc] at h
      simp [ht, hcheck, containsExit, isExit] at h
  · simp [ht]

theorem update_exit_bound (m : StateMachine) (dt : ℚ) (check : Nat → Option Nat)
    (h : containsExit (m.update dt check).2 = true) :
    m.minTimeInState ≤ m.timeInCurrentState + dt ∧
      (m.update dt check).1.timeInCurrentState = 0 := by
  cases hc : m.currentState with
  | none =>
    rw [update_of_none m dt check hc] at h
    simp [containsExit] at h
  | some c =>
    simp only [StateMachine.update, hc] at h ⊢
    by_cases ht : m.minTimeInState ≤ m.timeInCurrentState + dt
    · cases hcheck : check c with
      | none => simp [ht, hcheck, containsExit, isExit] at h
      | some n => simp [ht, hcheck]
    · simp [ht, containsExit, isExit] at h

theorem runUpdates_no_exit (steps : List (ℚ × (Nat → Option Nat))) (m : StateMachine)
    (c : Nat) (hc : m.currentState = some c)
    (h : containsExit (m.runUpdates steps).2 = false) :
    (m.runUpdates steps).1 =
      { m with timeInCurrentState := m.timeInCurrentState + (steps.map Prod.fst).sum } := by
  induction steps generalizing m with
  | nil => simp [StateMachine.runUpdates]
  | cons s rest ih =>
    obtain ⟨dt, check⟩ := s
    have hsplit : containsExit (m.update dt check).2 = false ∧
        containsExit ((m.update dt check).1.runUpdates rest).2 = false := by
      have := h
      simp only [StateMachine.runUpdates, containsExit, List.any_append,
        Bool.or_eq_false_iff] at this
      exact ⟨this.1, this.2⟩
    have hstep := update_no_exit m dt check c hc hsplit.1
    have hc1 : (m.update dt check).1.currentState = some c := by rw [hstep]; exact hc
    have htail := ih (m.update dt check).1 hc1 (by
      simpa only [StateMachine.runUpdates, containsExit, List.any_append,
        Bool.or_eq_false_iff] using hsplit.2)
    have : (m.runUpdates ((dt, check) :: rest)).1 =
        ((m.update dt check).1.runUpdates rest).1 := by
      simp [StateMachine.runUpdates]
    rw [this, htail, hstep]
    simp only [List.map_cons, List.sum_cons]
    congr 1
    ring

/-! ### Claim C1 — changeState with a current state -/

/-- A machine with the two states "A" (id 0) and "B" (id 1) registered. -/
def fsmAB : StateMachine := (initMachine.registerState "A" 0).registerState "B" 1

/-- The machine after `changeState("A")` (first transition, from no state). -/
def fsmRunA : StateMachine × List Ev × Bool := fsmAB.changeState "A"

/-- The machine after a further `changeState("B")` issued while "A" is current. -/
def fsmThenB : StateMachine × List Ev × Bool := fsmRunA.1.changeState "B"

/-- C1 counterexample: with "A" current, `changeState("B")` fires `onExit`
and `onEnter` synchronously at call time and makes "B" current at once;
no request is merely recorded, contradicting the claim that no hook is
invoked at call time. -/
theorem changeState_fires_hooks_cx :
    fsmThenB.2.1 = [Ev.exit 0 1, Ev.enter 1 (some 0)]
  ∧ fsmThenB.2.1 ≠ []
  ∧ fsmThenB.1.currentState = some 1 := by
  refine ⟨?_, ?_, ?_⟩ <;> decide

/-- C1 amended: when a current state exists, `changeState` with a
registered name transitions immediately and synchronously: the current
state's `onExit(new)` fires, the named state becomes current, the
time-in-state accumulator is reset, the new state's `onEnter(prev)`
fires, and the call returns true; the registered mapping is untouched.
There is no pending-next-state slot. -/
theorem changeState_with_current_immediate (m : StateMachine) (name : String)
    (s c : Nat) (hs : m.states.lookup name = some s) (hc : m.currentState = some c) :
    m.changeState name =
      ({ m with currentState := some s, timeInCurrentState := 0 },
        [Ev.exit c s, Ev.enter s (some c)], true) := by
  simp [StateMachine.changeState, hs, hc]

/-- C1 witness: the amended theorem applied to the concrete two-state run. -/
theorem changeState_with_current_immediate_wit :
    fsmRunA.1.changeState "B" =
      ({ fsmRunA.1 with currentState := some 1, timeInCurrentState := 0 },
        [Ev.exit 0 1, Ev.enter 1 (some 0)], true) :=
  changeState_with_current_immediate fsmRunA.1 "B" 1 0 (by decide) (by decide)

/-! ### Claim C9 — changeState with an unknown name -/

/-- C9: `changeState` on a name with no registered state logs a warning,
returns false, and changes nothing: the whole machine (current state and
state mapping included) is returned unmodified, and no `onEnter`/`onExit`
event appears in the trace. -/
theorem changeState_unknown_noop (m : StateMachine) (name : String)
    (h : m.states.lookup name = none) :
    m.changeState name = (m, [Ev.warn], false) := by
  simp [StateMachine.changeState, h]

/-- C9 witness: a fresh machine has no state named "ghost". -/
theorem changeState_unknown_noop_wit :
    initMachine.changeState "ghost" = (initMachine, [Ev.warn], false) :=
  changeState_unknown_noop initMachine "ghost" (by decide)

/-! ### Claim C7 — duplicate registerState -/

/-- Registering the id 0 and then the id 1 under the same name "a". -/
def fsmDup : StateMachine := (initMachine.registerState "a" 0).registerState "a" 1

/-- C7 counterexample: re-registering the name "a" silently replaces the
original state (the mapping now yields the second state, id 1, not the
original id 0); `registerState` is a bare `Map.set` and logs nothing, so
the original registration does not win. -/
theorem registerState_overwrites_cx :
    fsmDup.states.lookup "a" = some 1 ∧ fsmDup.states.lookup "a" ≠ some 0 := by
  refine ⟨?_, ?_⟩ <;> decide

/-- C7 amended: `registerState` on an already-registered name is
non-fatal but logs nothing and overwrites: the newest registration wins,
mappings under every other name are untouched, and the current state is
unaffected. -/
theorem registerState_last_wins (m : StateMachine) (name : String) (s : Nat) :
    ((m.registerState name s).states.lookup name = some s)
  ∧ (∀ k, k ≠ name → (m.registerState name s).states.lookup k = m.states.lookup k)
  ∧ (m.registerState name s).currentState = m.currentState := by
  refine ⟨lookup_mapSet_self name s m.states, fun k hk => ?_, rfl⟩
  exact lookup_mapSet_ne name k s m.states hk

/-- C7 witness: the amended theorem at a machine already holding "a". -/
theorem registerState_last_wins_wit :
    ((initMachine.registerState "a" 0).registerState "a" 1).states.lookup "a" = some 1
  ∧ ((initMachine.registerState "a" 0).registerState "a" 1).states.lookup "b" =
      (initMachine.registerState "a" 0).states.lookup "b" :=
  ⟨(registerState_last_wins (initMachine.registerState "a" 0) "a" 1).1,
    (registerState_last_wins (initMachine.registerState "a" 0) "a" 1).2.1 "b" (by decide)⟩

/-! ### Claim C2 — the shape of update -/

/-- The machine with only "A" (id 0) registered, after `changeState("A")`:
"A" is current, the timer is fresh, and no transition request of any kind
is outstanding. -/
def fsmOnA : StateMachine := ((initMachine.registerState "A" 0).changeState "A").1

/-- One update frame of length 1 on `fsmOnA`, during which the current
state's `checkTransitions()` answers state id 1. -/
def updNoPending : StateMachine × List Ev := fsmOnA.update 1 (fun _ => some 1)

/-- C2 counterexample: although no next state was ever requested (no
second `changeState` call is outstanding), a single `update` swaps the
current state to the one returned by the current state's
`checkTransitions()` — the machine is a pull-model machine with no
`canTransitions()` gate and no pending-next-state slot, so the claimed
gate-and-queue behavior is not what `update` does. -/
theorem update_transitions_without_pending_cx :
    updNoPending.1.currentState = some 1 ∧ containsExit updNoPending.2 = true := by
  have h1 : fsmOnA = { currentState := some 0, states := [("A", 0)] } := by
    simp [fsmOnA, initMachine, StateMachine.registerState, StateMachine.changeState,
      mapSet, List.lookup]
  refine ⟨?_, ?_⟩ <;>
    · simp [updNoPending, h1, StateMachine.update, containsExit, isExit]
      norm_num

/-- C2 amended: `update(dt)` is a no-op with no current state; otherwise
it adds `dt` to the time-in-state accumulator and calls the current
state's `update(dt)`; while the accumulated time is below
`minTimeInState` no transition happens this frame, whatever
`checkTransitions()` would answer; once the accumulated time reaches
`minTimeInState`, the current state's `checkTransitions()` is consulted:
a null answer means no transition, and an answer `n` triggers
`onExit(n)` on the current state, the swap to `n`, an accumulator reset,
and `onEnter(prev)` on `n`.  There is no `canTransitions()` gate and no
pending-next-state slot. -/
theorem update_pull_model (m : StateMachine) (dt : ℚ) (check : Nat → Option Nat) :
    (m.currentState = none → m.update dt check = (m, []))
  ∧ (∀ c, m.currentState = some c →
      (m.timeInCurrentState + dt < m.minTimeInState →
        m.update dt check =
          ({ m with timeInCurrentState := m.timeInCurrentState + dt }, [Ev.upd c dt]))
    ∧ (m.minTimeInState ≤ m.timeInCurrentState + dt → check c = none →
        m.update dt check =
          ({ m with timeInCurrentState := m.timeInCurrentState + dt }, [Ev.upd c dt]))
    ∧ (∀ n, m.minTimeInState ≤ m.timeInCurrentState + dt → check c = some n →
        m.update dt check =
          ({ m with currentState := some n, timeInCurrentState := 0 },
            [Ev.upd c dt, Ev.exit c n, Ev.enter n (some c)]))) := by
  refine ⟨fun h => update_of_none m dt check h, fun c hc => ⟨?_, ?_, ?_⟩⟩
  · intro ht
    simp [StateMachine.update, hc, not_le.mpr ht]
  · intro ht hcheck
    simp [StateMachine.update, hc, ht, hcheck]
  · intro n ht hcheck
    simp [StateMachine.update, hc, ht, hcheck]

/-- C2 witness: the transition branch of the amended theorem at the
concrete one-state machine: a frame of length 1 with
`checkTransitions()` answering 1 swaps the current state. -/
theorem update_pull_model_wit :
    fsmOnA.update 1 (fun _ => some 1) =
      ({ fsmOnA with currentState := some 1, timeInCurrentState := 0 },
        [Ev.upd 0 1, Ev.exit 0 1, Ev.enter 1 (some 0)]) :=
  ((update_pull_model fsmOnA 1 (fun _ => some 1)).2 0 (by decide)).2.2 1
    (by
      have h1 : fsmOnA.minTimeInState = 1/10 := by
        simp [fsmOnA, initMachine, StateMachine.registerState, StateMachine.changeState,
          mapSet, List.lookup]
      have h2 : fsmOnA.timeInCurrentState = 0 := by
        simp [fsmOnA, initMachine, StateMachine.registerState, StateMachine.changeState,
          mapSet, List.lookup]
      rw [h1, h2]
      norm_num)
    rfl

/-! ### Claim C10 — the minimum-time-in-state throttle -/

/-- C10: the update-driven transition throttle.  (i) A fresh machine's
`minTimeInState` is 0.1.  (ii) `setMinTimeInState` sets it.  (iii) A
successful `changeState` resets the time-in-state accumulator to zero.
(iv) An `update` that performs a transition requires the accumulated
time (previous accumulator plus this frame's dt) to have reached
`minTimeInState`, and resets the accumulator.  (v) Hence, starting from
a just-transitioned machine (accumulator zero), if a run of transition-
free updates is followed by an update that does transition, the total
dt accumulated across those frames is at least `minTimeInState`: two
update-driven transitions are never less than the threshold apart. -/
theorem update_min_time_throttle :
    (initMachine.minTimeInState = 1/10)
  ∧ (∀ (m : StateMachine) (t : ℚ), (m.setMinTimeInState t).minTimeInState = t)
  ∧ (∀ (m : StateMachine) (name : String), (m.changeState name).2.2 = true →
      (m.changeState name).1.timeInCurrentState = 0)
  ∧ (∀ (m : StateMachine) (dt : ℚ) (check : Nat → Option Nat),
      containsExit (m.update dt check).2 = true →
        m.minTimeInState ≤ m.timeInCurrentState + dt ∧
          (m.update dt check).1.timeInCurrentState = 0)
  ∧ (∀ (m : StateMachine) (c : Nat) (pre : List (ℚ × (Nat → Option Nat)))
      (dt : ℚ) (check : Nat → Option Nat),
      m.currentState = some c → m.timeInCurrentState = 0 →
      containsExit (m.runUpdates pre).2 = false →
      containsExit ((m.runUpdates pre).1.update dt check).2 = true →
      m.minTimeInState ≤ (pre.map Prod.fst).sum + dt) := by
  refine ⟨rfl, fun m t => rfl, ?_, fun m dt check h => update_exit_bound m dt check h, ?_⟩
  · intro m name h
    cases hl : m.states.lookup name with
    | none => simp [StateMachine.changeState, hl] at h
    | some s => simp [StateMachine.changeState, hl]
  · intro m c pre dt check hc ht0 hpre htrans
    have hrun := runUpdates_no_exit pre m c hc hpre
    have hbound := update_exit_bound (m.runUpdates pre).1 dt check htrans
    rw [hrun] at hbound
    simpa [ht0] using hbound.1

/-- A just-transitioned machine with a threshold of 2 time units,
used to instantiate the throttle theorem. -/
def fsmThrottle : StateMachine := { currentState := some 0, minTimeInState := 2 }

/-- The transition-free first frame of the witness run: one time unit
passes and `checkTransitions()` answers null. -/
def throttlePre : List (ℚ × (Nat → Option Nat)) := [(1, fun _ => none)]

/-- C10 witness: the run-level throttle conjunct at a concrete run — a
1-unit quiet frame followed by a 2-unit frame whose transition is
allowed; the total 3 is at least the threshold 2. -/
theorem update_min_time_throttle_wit :
    fsmThrottle.minTimeInState ≤ (throttlePre.map Prod.fst).sum + 2 :=
  update_min_time_throttle.2.2.2.2 fsmThrottle 0 throttlePre 2 (fun _ => some 5)
    rfl rfl
    (by
      norm_num [throttlePre, StateMachine.runUpdates, StateMachine.update, fsmThrottle,
        containsExit, isExit])
    (by
      norm_num [throttlePre, StateMachine.runUpdates, StateMachine.update, fsmThrottle,
        containsExit, isExit])

/-! ### The object pool (the PoolManager source file, src/unnamed/part_002) -/

/-- The `PoolOptions` interface: every field optional.  The two node
callbacks are modelled by their presence (`resetCallback` as a flag the
`put` path reports; the construction callback is not observable through
any claimed behavior and is omitted). -/
structure PoolOptions where
  initialSize : Option Nat := none
  autoExpand : Option Bool := none
  maxSize : Option Nat := none
  autoShrink : Option Bool := none
  targetSize : Option Nat := none
  resetCallback : Bool := false
deriving DecidableEq, Repr

/-- The options a pool actually runs with, after the constructor's
`{ ...DEFAULT_POOL_OPTIONS, ...options }` spread. -/
structure PoolConfig where
  initialSize : Nat
  autoExpand : Bool
  maxSize : Nat
  autoShrink : Bool
  targetSize : Nat
  resetCallback : Bool
deriving DecidableEq, Repr

/-- The spread against `DEFAULT_POOL_OPTIONS`
(initialSize 5, autoExpand true, maxSize 0 meaning unlimited,
autoShrink false, targetSize 10): a field given by the caller wins,
a missing field takes the default. -/
def mergeOptions (o : PoolOptions) : PoolConfig :=
  { initialSize := o.initialSize.getD 5
    autoExpand := o.autoExpand.getD true
    maxSize := o.maxSize.getD 0
    autoShrink := o.autoShrink.getD false
    targetSize := o.targetSize.getD 10
    resetCallback := o.resetCallback }

/-- The `Pool` class state: the engine `NodePool` free-list is modelled
by its length (`free`, the value of `size()`), and `_totalSize` by an
integer, because `put` decrements it with no lower-bound check. -/
structure Pool where
  opts : PoolConfig
  free : Nat
  total : Int
deriving DecidableEq, Repr

/-- The constructor plus `_initializePool` (part_002): merge the options,
then create `initialSize` nodes, put each into the free-list and count it
in `_totalSize`. -/
def mkPool (options : PoolOptions) : Pool :=
  let cfg := mergeOptions options
  { opts := cfg, free := cfg.initialSize, total := (cfg.initialSize : Int) }

/-- How a `get()` call obtained its result node. -/
inductive GetResult where
  /-- Popped from the non-empty free-list. -/
  | fromPool
  /-- Free-list empty; a new node was created and counted (`_totalSize++`). -/
  | expanded
  /-- Free-list empty, auto-expand on, but `maxSize` reached: the console
  warning "Max size reached, cannot expand pool further" fires and a fresh
  instance the pool does not track is returned. -/
  | atMaxUntracked
  /-- Free-list empty and auto-expand off: the console warning "Pool is
  empty and auto-expand is disabled" fires and a fresh instance the pool
  does not track is returned. -/
  | noExpandUntracked
deriving DecidableEq, Repr

/-- Whether the returned node is tracked by the pool. -/
def GetResult.tracked : GetResult → Bool
  | .fromPool => true
  | .expanded => true
  | .atMaxUntracked => false
  | .noExpandUntracked => false

/-- Whether the `get()` call emitted a console warning. -/
def GetResult.warned : GetResult → Bool
  | .fromPool => false
  | .expanded => false
  | .atMaxUntracked => true
  | .noExpandUntracked => true

/-- `Pool.get` (part_002): pop the free-list if non-empty; else, under
auto-expand, refuse with a capacity warning if `maxSize > 0` and
`_totalSize >= maxSize` (returning an untracked instance), otherwise
create and count a node; without auto-expand, warn and return an
untracked instance. -/
def Pool.get (p : Pool) : Pool × GetResult :=
  if 0 < p.free then ({ p with free := p.free - 1 }, GetResult.fromPool)
  else if p.opts.autoExpand = true then
    if 0 < p.opts.maxSize ∧ (p.opts.maxSize : Int) ≤ p.total then
      (p, GetResult.atMaxUntracked)
    else ({ p with total := p.total + 1 }, GetResult.expanded)
  else (p, GetResult.noExpandUntracked)

/-- What `put()` did with the returned node. -/
inductive PutAction where
  /-- The node was destroyed and `_totalSize` decremented. -/
  | destroyed
  /-- The node was pushed onto the free-list; the flag records whether the
  caller-supplied reset callback ran on it first. -/
  | pooled (resetRan : Bool)
deriving DecidableEq, Repr

/-- `Pool.put` (part_002 lines 107-125): destroy the node and decrement
`_totalSize` only when auto-shrink is on AND `maxSize > 0` AND the
free-list has reached `targetSize`; otherwise run the reset callback,
if one was supplied, and push the node onto the free-list. -/
def Pool.put (p : Pool) : Pool × PutAction :=
  if p.opts.autoShrink = true ∧ 0 < p.opts.maxSize ∧ p.opts.targetSize ≤ p.free then
    ({ p with total := p.total - 1 }, PutAction.destroyed)
  else
    ({ p with free := p.free + 1 }, PutAction.pooled p.opts.resetCallback)

/-- `size()`: the free-list length. -/
def Pool.size (p : Pool) : Nat := p.free

/-- `totalSize()`: the `_totalSize` counter. -/
def Pool.totalSize (p : Pool) : Int := p.total

/-- A pool-API call in a get/put trace.  `put` stands for returning a
pool-tracked instance previously handed out by `get` (the pool itself
never inspects the argument, so only the ghost count of outstanding
tracked instances distinguishes the cases). -/
inductive PoolOp where
  | get
  | put
deriving DecidableEq, Repr

/-- One trace step over the pool state extended with the ghost count of
outstanding tracked instances. -/
def stepOp (s : Pool × Nat) (op : PoolOp) : Pool × Nat :=
  match op with
  | .get => ((s.1.get).1, s.2 + (if (s.1.get).2.tracked = true then 1 else 0))
  | .put => ((s.1.put).1, s.2 - 1)

/-- Run a trace of pool calls. -/
def runOps (s : Pool × Nat) (ops : List PoolOp) : Pool × Nat := ops.foldl stepOp s

/-- A trace is valid when every `put` returns one of the currently
outstanding tracked instances (so the ghost count is positive there). -/
def validOps : Pool × Nat → List PoolOp → Bool
  | _, [] => true
  | s, op :: rest =>
    (match op with
      | PoolOp.get => true
      | PoolOp.put => decide (0 < s.2)) && validOps (stepOp s op) rest

/-- The inductive pool invariant: the options never change, the free-list
plus the outstanding tracked instances account exactly for `_totalSize`,
and `_totalSize` respects `maxSize` when that bound is on. -/
def poolInv (cfg : PoolConfig) (s : Pool × Nat) : Prop :=
  s.1.opts = cfg ∧ (s.1.free : Int) + (s.2 : Int) = s.1.total ∧
    (0 < cfg.maxSize → s.1.total ≤ (cfg.maxSize : Int))

/-- Case analysis of `Pool.get` as the source writes it. -/
theorem Pool.get_cases (p : Pool) :
    (0 < p.free ∧ p.get = ({ p with free := p.free - 1 }, GetResult.fromPool))
  ∨ (p.free = 0 ∧ p.opts.autoExpand = true ∧ 0 < p.opts.maxSize ∧
      (p.opts.maxSize : Int) ≤ p.total ∧ p.get = (p, GetResult.atMaxUntracked))
  ∨ (p.free = 0 ∧ p.opts.autoExpand = true ∧
      ¬(0 < p.opts.maxSize ∧ (p.opts.maxSize : Int) ≤ p.total) ∧
      p.get = ({ p with total := p.total + 1 }, GetResult.expanded))
  ∨ (p.free = 0 ∧ ¬p.opts.autoExpand = true ∧
      p.get = (p, GetResult.noExpandUntracked)) := by
  unfold Pool.get
  by_cases h1 : 0 < p.free
  · exact Or.inl ⟨h1, by rw [if_pos h1]⟩
  · have hf : p.free = 0 := Nat.eq_zero_of_not_pos h1
    by_cases h2 : p.opts.autoExpand = true
    · by_cases h3 : 0 < p.opts.maxSize ∧ (p.opts.maxSize : Int) ≤ p.total
      · exact Or.inr (Or.inl ⟨hf, h2, h3.1, h3.2, by rw [if_neg h1, if_pos h2, if_pos h3]⟩)
      · exact Or.inr (Or.inr (Or.inl ⟨hf, h2, h3, by rw [if_neg h1, if_pos h2, if_neg h3]⟩))
    · exact Or.inr (Or.inr (Or.inr ⟨hf, h2, by rw [if_neg h1, if_neg h2]⟩))

/-- One valid step preserves the pool invariant. -/
theorem stepOp_inv (cfg : PoolConfig) (s : Pool × Nat) (op : PoolOp)
    (hv : op = PoolOp.put → 0 < s.2) (hI : poolInv cfg s) :
    poolInv cfg (stepOp s op) := by
  obtain ⟨p, out⟩ := s
  obtain ⟨hopts, hsum, hmax⟩ := hI
  dsimp only at hopts hsum hmax
  subst hopts
  cases op with
  | get =>
    rcases Pool.get_cases p with ⟨h1, heq⟩ | ⟨_, _, _, _, heq⟩ |
        ⟨_, _, h3, heq⟩ | ⟨_, _, heq⟩
    · have hstep : stepOp (p, out) PoolOp.get = ({ p with free := p.free - 1 }, out + 1) := by
        simp [stepOp, heq, GetResult.tracked]
      rw [hstep]
      exact ⟨rfl, by dsimp only; omega, hmax⟩
    · have hstep : stepOp (p, out) PoolOp.get = (p, out) := by
        simp [stepOp, heq, GetResult.tracked]
      rw [hstep]
      exact ⟨rfl, hsum, hmax⟩
    · have hstep : stepOp (p, out) PoolOp.get =
          ({ p with total := p.total + 1 }, out + 1) := by
        simp [stepOp, heq, GetResult.tracked]
      rw [hstep]
      push_neg at h3
      refine ⟨rfl, by dsimp only; omega, fun hpos => ?_⟩
      have := h3 hpos
      dsimp only
      omega
    · have hstep : stepOp (p, out) PoolOp.get = (p, out) := by
        simp [stepOp, heq, GetResult.tracked]
      rw [hstep]
      exact ⟨rfl, hsum, hmax⟩
  | put =>
    have hout : 0 < out := hv rfl
    by_cases hc : p.opts.autoShrink = true ∧ 0 < p.opts.maxSize ∧ p.opts.targetSize ≤ p.free
    · have hstep : stepOp (p, out) PoolOp.put = ({ p with total := p.total - 1 }, out - 1) := by
        simp [stepOp, Pool.put, hc]
      rw [hstep]
      refine ⟨rfl, by dsimp only; omega, fun hpos => ?_⟩
      have := hmax hpos
      dsimp only
      omega
    · have hstep : stepOp (p, out) PoolOp.put = ({ p with free := p.free + 1 }, out - 1) := by
        simp only [stepOp, Pool.put, if_neg hc]
      rw [hstep]
      exact ⟨rfl, by dsimp only; omega, hmax⟩

/-- A valid trace preserves the pool invariant. -/
theorem runOps_inv (cfg : PoolConfig) (ops : List PoolOp) :
    ∀ s : Pool × Nat, poolInv cfg s → validOps s ops = true → poolInv cfg (runOps s ops) := by
  induction ops with
  | nil => intro s hI _; exact hI
  | cons op rest ih =>
    intro s hI hv
    simp only [validOps, Bool.and_eq_true] at hv
    have hstep : poolInv cfg (stepOp s op) := by
      refine stepOp_inv cfg s op ?_ hI
      intro hput
      cases op with
      | get => cases hput
      | put => exact of_decide_eq_true hv.1
    have : runOps s (op :: rest) = runOps (stepOp s op) rest := rfl
    rw [this]
    exact ih (stepOp s op) hstep hv.2

/-- C4 counterexample: a pool constructed with `initialSize = 4` and
`maxSize = 3` already violates `totalSize() <= maxSize` at construction
time (the constructor never checks `initialSize` against `maxSize`),
although `maxSize > 0`; the claim quantifies over every construction, so
it fails. -/
theorem pool_init_exceeds_max_cx :
    0 < (mkPool { initialSize := some 4, maxSize := some 3 }).opts.maxSize
  ∧ ¬((mkPool { initialSize := some 4, maxSize := some 3 }).totalSize ≤
      ((mkPool { initialSize := some 4, maxSize := some 3 }).opts.maxSize : Int)) := by
  refine ⟨?_, ?_⟩ <;> decide

/-- C4 amended: provided the pool is constructed with
`initialSize <= maxSize` whenever `maxSize > 0`, and every `put` returns
a pool-tracked instance previously obtained from `get` (each such
instance returned at most once, which is what a valid trace encodes),
then after any such sequence of `get`/`put` calls both
`size() <= totalSize()` and, whenever `maxSize > 0`,
`totalSize() <= maxSize` hold. -/
theorem pool_invariant_amended (options : PoolOptions) (ops : List PoolOp)
    (hinit : 0 < (mergeOptions options).maxSize →
      (mergeOptions options).initialSize ≤ (mergeOptions options).maxSize)
    (hvalid : validOps (mkPool options, 0) ops = true) :
    ((runOps (mkPool options, 0) ops).1.size : Int) ≤
        (runOps (mkPool options, 0) ops).1.totalSize
  ∧ (0 < (runOps (mkPool options, 0) ops).1.opts.maxSize →
      (runOps (mkPool options, 0) ops).1.totalSize ≤
        ((runOps (mkPool options, 0) ops).1.opts.maxSize : Int)) := by
  have h0 : poolInv (mergeOptions options) (mkPool options, 0) := by
    refine ⟨rfl, by simp [mkPool], fun hpos => ?_⟩
    have := hinit hpos
    simp only [mkPool]
    omega
  have hfin := runOps_inv (mergeOptions options) ops (mkPool options, 0) h0 hvalid
  obtain ⟨hopts, hsum, hmax⟩ := hfin
  refine ⟨by simp [Pool.size, Pool.totalSize]; omega, fun hpos => ?_⟩
  rw [hopts] at hpos ⊢
  simpa [Pool.totalSize] using hmax hpos

/-- C4 witness: a bounded pool (initial 1, max 2) through the trace
get, put, get, get: the second get reuses the returned node and the
third expands within the bound. -/
theorem pool_invariant_amended_wit :
    ((runOps (mkPool { initialSize := some 1, maxSize := some 2 }, 0)
        [PoolOp.get, PoolOp.put, PoolOp.get, PoolOp.get]).1.size : Int) ≤
      (runOps (mkPool { initialSize := some 1, maxSize := some 2 }, 0)
        [PoolOp.get, PoolOp.put, PoolOp.get, PoolOp.get]).1.totalSize :=
  (pool_invariant_amended { initialSize := some 1, maxSize := some 2 }
    [PoolOp.get, PoolOp.put, PoolOp.get, PoolOp.get]
    (by decide) (by decide)).1

/-- An unbounded auto-shrink pool whose free-list is already at its
target size: `initialSize = 1`, `targetSize = 1`, `maxSize` left at its
default 0 ("unlimited"). -/
def shrinkUnboundedPool : Pool :=
  mkPool { initialSize := some 1, autoShrink := some true, targetSize := some 1 }

/-- C5 counterexample: on an unbounded pool (`maxSize = 0`) with
auto-shrink enabled and the free-list already at the target size, `put`
does NOT destroy the instance: it pushes it onto the free-list (without
running the absent reset callback) and leaves `totalSize` unchanged,
because the shrink branch additionally requires `maxSize > 0` — the
shrink-on-return behavior does depend on `maxSize`, contradicting the
claim. -/
theorem put_no_shrink_when_unbounded_cx :
    shrinkUnboundedPool.opts.autoShrink = true
  ∧ shrinkUnboundedPool.opts.targetSize ≤ shrinkUnboundedPool.free
  ∧ (shrinkUnboundedPool.put).2 = PutAction.pooled false
  ∧ (shrinkUnboundedPool.put).1.totalSize = shrinkUnboundedPool.totalSize
  ∧ (shrinkUnboundedPool.put).1.size = shrinkUnboundedPool.size + 1 := by
  refine ⟨?_, ?_, ?_, ?_, ?_⟩ <;> decide

/-- C5 amended: `put` destroys the instance and decrements `totalSize`
precisely when auto-shrink is enabled AND `maxSize > 0` AND the
free-list has already reached the target size; in every other case —
including every unbounded pool, whatever the free-list length — it runs
the optional reset callback and pushes the instance onto the free-list.
The shrink-on-return behavior does depend on the pool's `maxSize`. -/
theorem put_shrink_characterization (p : Pool) :
    (p.opts.autoShrink = true → 0 < p.opts.maxSize → p.opts.targetSize ≤ p.free →
      (p.put).2 = PutAction.destroyed ∧ (p.put).1.totalSize = p.totalSize - 1 ∧
        (p.put).1.size = p.size)
  ∧ (¬(p.opts.autoShrink = true ∧ 0 < p.opts.maxSize ∧ p.opts.targetSize ≤ p.free) →
      (p.put).2 = PutAction.pooled p.opts.resetCallback ∧
        (p.put).1.size = p.size + 1 ∧ (p.put).1.totalSize = p.totalSize) := by
  constructor
  · intro h1 h2 h3
    simp [Pool.put, Pool.size, Pool.totalSize, h1, h2, h3]
  · intro h
    rw [Pool.put, if_neg h]
    exact ⟨rfl, rfl, rfl⟩

/-- A bounded auto-shrink pool at its target size (`maxSize = 5`),
where the shrink branch genuinely fires. -/
def shrinkBoundedPoolOptions : PoolOptions :=
  { initialSize := some 1, maxSize := some 5, autoShrink := some true, targetSize := some 1 }

def shrinkBoundedPool : Pool := mkPool shrinkBoundedPoolOptions

/-- C5 witness: both branches of the amended characterization at
concrete pools — the bounded auto-shrink pool destroys on `put`, the
unbounded one pools the instance. -/
theorem put_shrink_characterization_wit :
    ((shrinkBoundedPool.put).2 = PutAction.destroyed ∧
      (shrinkBoundedPool.put).1.totalSize = shrinkBoundedPool.totalSize - 1 ∧
      (shrinkBoundedPool.put).1.size = shrinkBoundedPool.size)
  ∧ ((shrinkUnboundedPool.put).2 = PutAction.pooled shrinkUnboundedPool.opts.resetCallback ∧
      (shrinkUnboundedPool.put).1.size = shrinkUnboundedPool.size + 1 ∧
      (shrinkUnboundedPool.put).1.totalSize = shrinkUnboundedPool.totalSize) :=
  ⟨(put_shrink_characterization shrinkBoundedPool).1 (by decide) (by decide) (by decide),
    (put_shrink_characterization shrinkUnboundedPool).2 (by decide)⟩

/-- The pool of the C6 scenario: `initialSize = 2`, `maxSize = 3`,
`autoExpand = true`. -/
def scenarioPool : Pool :=
  mkPool { initialSize := some 2, maxSize := some 3, autoExpand := some true }

/-- First get of the scenario. -/
def scenarioG1 : Pool × GetResult := scenarioPool.get

/-- Second get. -/
def scenarioG2 : Pool × GetResult := scenarioG1.1.get

/-- Third get. -/
def scenarioG3 : Pool × GetResult := scenarioG2.1.get

/-- Fourth get, with no intervening put. -/
def scenarioG4 : Pool × GetResult := scenarioG3.1.get

/-- C6: on a pool with initial 2, max 3 and auto-expand, the first three
`get()` calls return tracked instances without warning (two pops and one
in-bound expansion); the fourth warns that the max size is reached and
returns an untracked instance, leaving `totalSize()` at 3. -/
theorem pool_capacity_scenario :
    scenarioG1.2.tracked = true ∧ scenarioG1.2.warned = false
  ∧ scenarioG2.2.tracked = true ∧ scenarioG2.2.warned = false
  ∧ scenarioG3.2.tracked = true ∧ scenarioG3.2.warned = false
  ∧ scenarioG4.2 = GetResult.atMaxUntracked ∧ scenarioG4.2.warned = true
  ∧ scenarioG4.2.tracked = false
  ∧ scenarioG4.1.totalSize = scenarioG3.1.totalSize
  ∧ scenarioG4.1.totalSize = 3 := by
  refine ⟨?_, ?_, ?_, ?_, ?_, ?_, ?_, ?_, ?_, ?_, ?_⟩ <;> decide

/-! ### The event channel (the EventManager source file, src/unnamed/part_001) -/

/-- The `EventPriority` enum: LOW 0, NORMAL 1, HIGH 2, CRITICAL 3. -/
def EventPriority.LOW : Nat := 0

/-- NORMAL priority (the default of `on`). -/
def EventPriority.NORMAL : Nat := 1

/-- HIGH priority. -/
def EventPriority.HIGH : Nat := 2

/-- CRITICAL priority. -/
def EventPriority.CRITICAL : Nat := 3

/-- An `EventListenerEntry` of the channel's `_listenerMap`: callback and
target are identities (the target optional), plus the one-shot flag and
the priority. -/
structure Entry where
  callback : Nat
  target : Option Nat
  once : Bool
  priority : Nat
deriving DecidableEq, Repr

/-- Stable insertion into a descending-priority list: the new element
goes before every strictly-lower-priority element and after every
element of greater or equal priority already present. -/
def insertByPriority (e : Entry) : List Entry → List Entry
  | [] => [e]
  | x :: xs => if e.priority < x.priority then x :: insertByPriority e xs else e :: x :: xs

/-- The channel's `listeners.sort((a, b) => b.priority - a.priority)`:
a stable sort by descending priority (JavaScript `Array.prototype.sort`
is specified stable, so equal-priority entries keep registration order);
realised as the standard stable insertion sort. -/
def sortByPriorityDesc (l : List Entry) : List Entry := l.foldr insertByPriority []

/-- The `EventChannel` state.  `engineListeners` models the external
engine's `cc.EventTarget` registry (`_eventTarget`), which keeps, per
event name, the (callback, target) pairs in the order they were
registered; `listenerMap` is the channel's own `_listenerMap`, kept
sorted by descending priority. -/
structure EventChannel where
  engineListeners : List (String × List (Nat × Option Nat)) := []
  listenerMap : List (String × List Entry) := []
deriving DecidableEq, Repr

/-- A channel with no listeners. -/
def emptyChannel : EventChannel := {}

/-- `EventChannel.on` (part_001 lines 48-81): ensure the event has a
listener list; if an entry with the same callback AND the same target is
already present, warn (the returned flag) and change nothing; otherwise
push the new persistent entry, re-sort that event's list by descending
priority, and register the callback with the engine `EventTarget` as
well. -/
def EventChannel.on (ch : EventChannel) (eventName : String) (callback : Nat)
    (target : Option Nat) (priority : Nat) : EventChannel × Bool :=
  let listeners := (ch.listenerMap.lookup eventName).getD []
  if listeners.any (fun l => l.callback == callback && l.target == target) then
    (ch, true)
  else
    let entry : Entry := { callback := callback, target := target, once := false,
                           priority := priority }
    let sorted := sortByPriorityDesc (listeners ++ [entry])
    let engine := (ch.engineListeners.lookup eventName).getD [] ++ [(callback, target)]
    ({ listenerMap := mapSet eventName sorted ch.listenerMap,
       engineListeners := mapSet eventName engine ch.engineListeners }, false)

/-- `EventChannel.emit` (part_001 lines 133-135): the body is a single
delegation, `this._eventTarget.emit(eventName, eventData)`, to the
external engine `EventTarget`; the engine invokes the callbacks
registered for that event in the order they were registered (the
channel's priority-sorted `_listenerMap` is never consulted).  The
result is the list of callbacks invoked, in invocation order. -/
def EventChannel.emit (ch : EventChannel) (eventName : String) : List Nat :=
  ((ch.engineListeners.lookup eventName).getD []).map Prod.fst

/-- `hasEventListener` (part_001): a non-empty-list probe of `_listenerMap`. -/
def EventChannel.hasEventListener (ch : EventChannel) (eventName : String) : Bool :=
  match ch.listenerMap.lookup eventName with
  | some listeners => !listeners.isEmpty
  | none => false

/-- The three listeners of the C3 scenario, registered for "e" in the
order LOW (callback 0), CRITICAL (callback 1), NORMAL (callback 2). -/
def prioChannel : EventChannel :=
  (((emptyChannel.on "e" 0 none EventPriority.LOW).1.on
      "e" 1 none EventPriority.CRITICAL).1.on
      "e" 2 none EventPriority.NORMAL).1

/-- C3: with listeners registered with priorities [LOW, CRITICAL, NORMAL]
(callbacks 0, 1, 2 in that registration order), `emit` invokes them in
registration order [0, 1, 2], not in the priority order [1, 2, 0] the
claim states — even though the channel's own `_listenerMap` does hold
them priority-sorted as [1, 2, 0], `emit` never reads it and delegates
to the engine `EventTarget` instead. -/
theorem emit_fires_in_registration_order :
    prioChannel.emit "e" = [0, 1, 2]
  ∧ ((prioChannel.listenerMap.lookup "e").getD []).map Entry.callback = [1, 2, 0]
  ∧ prioChannel.emit "e" ≠ [1, 2, 0] := by
  refine ⟨?_, ?_, ?_⟩ <;> decide

/-- C8: an `on` call whose (callback, target) pair is already registered
for that event warns and is a no-op: the channel (both the engine
registry and the priority-sorted listener map, hence also the original
entry's priority) is returned unchanged. -/
theorem on_duplicate_rejected (ch : EventChannel) (eventName : String)
    (callback : Nat) (target : Option Nat) (priority : Nat)
    (hdup : ((ch.listenerMap.lookup eventName).getD []).any
      (fun l => l.callback == callback && l.target == target) = true) :
    ch.on eventName callback target priority = (ch, true) := by
  simp only [EventChannel.on, hdup, if_true]

/-- A channel holding callback 7 with target 4 for "e" at NORMAL priority. -/
def dupChannel : EventChannel :=
  (emptyChannel.on "e" 7 (some 4) EventPriority.NORMAL).1

/-- C8 witness: re-registering callback 7 with target 4 for "e", even at
a different priority, warns and leaves the channel unchanged. -/
theorem on_duplicate_rejected_wit :
    dupChannel.on "e" 7 (some 4) EventPriority.CRITICAL = (dupChannel, true) :=
  on_duplicate_rejected dupChannel "e" 7 (some 4) EventPriority.CRITICAL (by decide)

end Unimob
